import Mathlib

/-!
Verification of the fee-cache, swap-math, reserve-cache and reconnect logic of
the backend service. Definitions are shallow embeddings of the TypeScript
sources: `gas-price.service.ts`, `uniswap.service.ts`, `eth.service.ts`.
JavaScript `bigint` values are modelled as `Int` (arbitrary precision,
division truncating toward zero — which on the non-negative operands used
here coincides with floor division, i.e. Lean's `/` on `Int`). JavaScript
strings are modelled as `List Char` (sequences of code units), and the
stateful services as explicit state-transition functions.
-/

/-! ### gas-price.service.ts -/

/-- One fee tier of the response: `{ maxPriorityFeePerGas, maxFeePerGas }`
(the source stores decimal string renderings of these `bigint` values; we
model the numeric values). -/
structure GasPriceTier where
  maxPriorityFeePerGas : Int
  maxFeePerGas : Int
deriving DecidableEq

/-- The snapshot stored in the cache: base fee plus the four tiers. -/
structure GasPriceResponse where
  baseFee : Int
  low : GasPriceTier
  medium : GasPriceTier
  high : GasPriceTier
  instant : GasPriceTier
deriving DecidableEq

/-- `MIN_PRIORITY_FEE = 1_500_000_000n` (1.5 Gwei). -/
def MIN_PRIORITY_FEE : Int := 1500000000

/-- Per-tier multiplier options `{ pMult, pDiv, baseBuffer }`. -/
structure TierOptions where
  pMult : Int
  pDiv : Int
  baseBuffer : Int
deriving DecidableEq

/-- `TIERS.low = { pMult: 100n, pDiv: 100n, baseBuffer: 110n }`. -/
def TIERS_low : TierOptions := ⟨100, 100, 110⟩

/-- `TIERS.medium = { pMult: 120n, pDiv: 100n, baseBuffer: 125n }`. -/
def TIERS_medium : TierOptions := ⟨120, 100, 125⟩

/-- `TIERS.high = { pMult: 150n, pDiv: 100n, baseBuffer: 150n }`. -/
def TIERS_high : TierOptions := ⟨150, 100, 150⟩

/-- `TIERS.instant = { pMult: 200n, pDiv: 100n, baseBuffer: 200n }`. -/
def TIERS_instant : TierOptions := ⟨200, 100, 200⟩

/-- `GasPriceService.calculateTier`: priority fee `pBase * pMult / pDiv`,
max fee `baseFee * baseBuffer / 100 + priorityFee`. -/
def calculateTier (baseFee priorityFeeBase : Int) (options : TierOptions) :
    GasPriceTier :=
  let priorityFee := priorityFeeBase * options.pMult / options.pDiv
  let bufferedBaseFee := baseFee * options.baseBuffer / 100
  { maxPriorityFeePerGas := priorityFee, maxFeePerGas := bufferedBaseFee + priorityFee }

/-- The anchor computed at the top of `updateGasPrice`:
`suggestedPriorityFee > MIN_PRIORITY_FEE ? suggestedPriorityFee : MIN_PRIORITY_FEE`. -/
def anchorPriorityFee (suggestedPriorityFee : Int) : Int :=
  if suggestedPriorityFee > MIN_PRIORITY_FEE then suggestedPriorityFee
  else MIN_PRIORITY_FEE

/-- The `data` field built by `GasPriceService.updateGasPrice`. -/
def updateGasPriceData (baseFee suggestedPriorityFee : Int) : GasPriceResponse :=
  { baseFee := baseFee
    low := calculateTier baseFee (anchorPriorityFee suggestedPriorityFee) TIERS_low
    medium := calculateTier baseFee (anchorPriorityFee suggestedPriorityFee) TIERS_medium
    high := calculateTier baseFee (anchorPriorityFee suggestedPriorityFee) TIERS_high
    instant := calculateTier baseFee (anchorPriorityFee suggestedPriorityFee) TIERS_instant }

/-- The `cache` field of `GasPriceService`: `{ data, updatedAt }`. -/
structure GasPriceCache where
  data : GasPriceResponse
  updatedAt : Int
deriving DecidableEq

/-- Error raised by `getGasPrice` (`ServiceUnavailableException`). -/
inductive GasReadError
  | serviceUnavailable
deriving DecidableEq

/-- `GasPriceService.getGasPrice` as a function of the current cache state
(`null` modelled as `none`). A stale cache only logs a warning; the data is
returned regardless. -/
def getGasPrice (cache : Option GasPriceCache) :
    Except GasReadError GasPriceResponse :=
  match cache with
  | none => .error .serviceUnavailable
  | some c => .ok c.data

/-- `GasPriceService.updateGasPrice` as a state transition: the cache is
replaced wholesale with a fresh snapshot (`Date.now()` passed as `now`). -/
def updateGasPrice (cache : Option GasPriceCache)
    (baseFee suggestedPriorityFee now : Int) : Option GasPriceCache :=
  some { data := updateGasPriceData baseFee suggestedPriorityFee, updatedAt := now }

/-- `GasPriceService.isCacheStale`. -/
def isCacheStale (cache : Option GasPriceCache) (now stalenessMs : Int) : Bool :=
  match cache with
  | none => true
  | some c => now - c.updatedAt > stalenessMs

/-! ### uniswap.service.ts: pure functions -/

/-- JavaScript strings as sequences of code units. -/
abbrev JsString := List Char

/-- `String.prototype.toLowerCase` restricted to the simple per-character
case mapping (exact on the ASCII hex addresses this code handles). -/
def jsToLower (s : JsString) : JsString := s.map Char.toLower

/-- JavaScript `<` on strings: lexicographic comparison of code units. -/
def jsLtChars : JsString → JsString → Bool
  | [], [] => false
  | [], _ :: _ => true
  | _ :: _, [] => false
  | a :: as, b :: bs =>
    if a < b then true
    else if a = b then jsLtChars as bs
    else false

/-- Errors thrown by `UniswapService`'s pure helpers. -/
inductive UniswapError
  | identicalAddresses
  | insufficientInputAmount
  | insufficientLiquidity
deriving DecidableEq

/-- `UniswapService.sortTokens`: lowercase both addresses, throw
IDENTICAL_ADDRESSES when equal, otherwise order the original strings by
their lowercase forms. -/
def sortTokens (tokenA tokenB : JsString) :
    Except UniswapError (JsString × JsString) :=
  let addressA := jsToLower tokenA
  let addressB := jsToLower tokenB
  if addressA = addressB then .error .identicalAddresses
  else if jsLtChars addressA addressB then .ok (tokenA, tokenB)
  else .ok (tokenB, tokenA)

/-- `UNISWAP_V2_FACTORY` address constant. -/
def UNISWAP_V2_FACTORY : JsString :=
  ("0x5C69bEe701ef814a2B6a3EDD4B1652CB9cc5aA6f").data

/-- `UNISWAP_V2_INIT_CODE` hash constant. -/
def UNISWAP_V2_INIT_CODE : JsString :=
  ("0x96e8ac4277198ff8b6f785478aa9a39f403cb768dd02cbee326c3e7da348845f").data

/-- `UniswapService.computePairAddress`, parameterized by the external
`ethers` primitives it calls (`keccak256`, `solidityPacked`,
`getCreate2Address`), which are pure library functions of their inputs. -/
def computePairAddress (keccak256 : JsString → JsString)
    (solidityPacked : JsString → JsString → JsString)
    (getCreate2Address : JsString → JsString → JsString → JsString)
    (tokenA tokenB : JsString) : Except UniswapError JsString :=
  match sortTokens tokenA tokenB with
  | .error e => .error e
  | .ok (token0, token1) =>
    let salt := keccak256 (solidityPacked token0 token1)
    .ok (getCreate2Address UNISWAP_V2_FACTORY salt UNISWAP_V2_INIT_CODE)

/-- Concrete stand-in for `ethers.solidityPacked` used in witnesses. -/
def concatPacked : JsString → JsString → JsString := List.append

/-- Concrete stand-in for `ethers.getCreate2Address` used in witnesses. -/
def concatCreate2 (factory salt initCode : JsString) : JsString :=
  factory ++ salt ++ initCode

/-- `UniswapService.getAmountOut`: UniswapV2 constant-product output amount
on arbitrary-precision integers. `/` on `Int` with the positive denominator
arising here is floor division, matching `bigint` division of the
non-negative operands. -/
def getAmountOut (amountIn reserveIn reserveOut : Int) :
    Except UniswapError Int :=
  if amountIn ≤ 0 then .error .insufficientInputAmount
  else if reserveIn ≤ 0 ∨ reserveOut ≤ 0 then .error .insufficientLiquidity
  else
    let amountInWithFee := amountIn * 997
    let numerator := amountInWithFee * reserveOut
    let denominator := reserveIn * 1000 + amountInWithFee
    .ok (numerator / denominator)

/-! ### uniswap.service.ts: reserve cache as a transition system

State fields mirror the service's private fields; fetch completion, Sync
events and reconnect notifications arrive as events interleaved with
requests, reflecting the asynchronous execution of the service. -/

/-- The `ReservesCache` record `{ reserve0, reserve1, lastUpdated }`. -/
structure Reserves where
  reserve0 : Int
  reserve1 : Int
  lastUpdated : Int
deriving DecidableEq

/-- Pair addresses (JavaScript strings) used as map keys. -/
abbrev PairKey := List Char

/-- `Map.get`: first binding for the key, if any. -/
def mapGet {α : Type} : List (PairKey × α) → PairKey → Option α
  | [], _ => none
  | (k2, v) :: rest, k => if k2 = k then some v else mapGet rest k

/-- `Map.delete`: drop every binding for the key. -/
def mapDelete {α : Type} : List (PairKey × α) → PairKey → List (PairKey × α)
  | [], _ => []
  | (k2, v) :: rest, k =>
    if k2 = k then mapDelete rest k else (k2, v) :: mapDelete rest k

/-- `Map.set`: bind the key, replacing any previous binding. -/
def mapSet {α : Type} (m : List (PairKey × α)) (k : PairKey) (v : α) :
    List (PairKey × α) :=
  (k, v) :: mapDelete m k

/-- One underlying reserve fetch started by `fetchAndSubscribe`: its pair
key, a unique identity, and the provider generation captured at its start
(line `const generation = this.providerGeneration`). -/
structure Fetch where
  key : PairKey
  id : Nat
  generation : Nat
deriving DecidableEq

/-- The `UniswapService` state: `reservesCache`, `pendingFetches` (pair
key to the identity of the coalesced fetch), `pairContracts` (pairs with a
Sync subscription), the set of started-but-not-settled fetches, a fresh-id
counter, and `providerGeneration`. -/
structure SvcState where
  reservesCache : List (PairKey × Reserves)
  pendingFetches : List (PairKey × Nat)
  pairContracts : List PairKey
  inFlight : List Fetch
  nextId : Nat
  providerGeneration : Nat
deriving DecidableEq

/-- Initial state: all maps empty, generation 0. -/
def initState : SvcState := ⟨[], [], [], [], 0, 0⟩

/-- What a `getReserves` call observes: a cache hit, joining the pending
fetch with the given identity, or starting the given new fetch. -/
inductive FetchOutcome
  | cacheHit (r : Reserves)
  | joined (fid : Nat)
  | started (f : Fetch)
deriving DecidableEq

/-- `UniswapService.getReserves`: return from cache when present; else join
the pending fetch for the pair when present; else start a new fetch,
registering it in `pendingFetches` and capturing the current generation. -/
def requestStep (st : SvcState) (k : PairKey) : SvcState × FetchOutcome :=
  match mapGet st.reservesCache k with
  | some r => (st, .cacheHit r)
  | none =>
    match mapGet st.pendingFetches k with
    | some fid => (st, .joined fid)
    | none =>
      ({ st with
          pendingFetches := mapSet st.pendingFetches k st.nextId,
          inFlight := Fetch.mk k st.nextId st.providerGeneration :: st.inFlight,
          nextId := st.nextId + 1 },
        .started (Fetch.mk k st.nextId st.providerGeneration))

/-- Settlement of a fetch (`fetchAndSubscribe` finishing, plus the
`finally` handler installed by `getReserves`): the pending entry for the
pair is deleted unconditionally; on success with a matching generation the
cache is written and a Sync subscription is added if absent; on a stale
generation the value is returned but not cached; on failure the error is
propagated to the joined callers. The second component is the outcome every
caller awaiting this coalesced fetch receives. -/
def completeStep (st : SvcState) (f : Fetch) (result : Option Reserves) :
    SvcState × Except Unit Reserves :=
  let st1 : SvcState :=
    { st with
        inFlight := st.inFlight.filter (fun g => decide (g ≠ f)),
        pendingFetches := mapDelete st.pendingFetches f.key }
  match result with
  | none => (st1, .error ())
  | some r =>
    if f.generation = st.providerGeneration then
      ({ st1 with
          reservesCache := mapSet st1.reservesCache f.key r,
          pairContracts :=
            if f.key ∈ st1.pairContracts then st1.pairContracts
            else f.key :: st1.pairContracts },
        .ok r)
    else (st1, .ok r)

/-- A Sync event: the handler registered by `subscribeToSync` overwrites
the pair's cached reserves; such handlers exist exactly for the pairs in
`pairContracts`. -/
def syncStep (st : SvcState) (k : PairKey) (reserve0 reserve1 lastUpdated : Int) :
    SvcState :=
  if k ∈ st.pairContracts then
    { st with
        reservesCache := mapSet st.reservesCache k ⟨reserve0, reserve1, lastUpdated⟩ }
  else st

/-- `UniswapService.invalidateSubscriptions`: clear subscriptions, pending
fetches and cached reserves, increment the generation. Fetches already in
flight keep running. -/
def invalidateSubscriptions (st : SvcState) : SvcState :=
  { st with
      pairContracts := [], pendingFetches := [], reservesCache := [],
      providerGeneration := st.providerGeneration + 1 }

/-- Events driving the service. -/
inductive Ev
  | request (k : PairKey)
  | complete (f : Fetch) (result : Option Reserves)
  | reconnect
  | sync (k : PairKey) (reserve0 reserve1 lastUpdated : Int)
deriving DecidableEq

/-- One event applied to the state. A `complete` event for a fetch that was
never started (or already settled) is a no-op. -/
def step (st : SvcState) : Ev → SvcState
  | .request k => (requestStep st k).1
  | .complete f result =>
    if f ∈ st.inFlight then (completeStep st f result).1 else st
  | .reconnect => invalidateSubscriptions st
  | .sync k r0 r1 t => syncStep st k r0 r1 t

/-- Execution of an event list from a given state. -/
def runFrom (st : SvcState) (es : List Ev) : SvcState := es.foldl step st

/-- Execution of an event list from the initial state: the reachable
states are exactly `run es` for the possible event lists `es`. -/
def run (es : List Ev) : SvcState := runFrom initState es

/-- Whether an event is a reconnect notification. -/
def isReconnectEv : Ev → Bool
  | .reconnect => true
  | _ => false

/-- Event lists containing no reconnect notification. -/
def noReconnect (es : List Ev) : Bool := es.all (fun e => !isReconnectEv e)

/-- Number of in-flight fetches for a given pair key. -/
def inFlightCount (st : SvcState) (k : PairKey) : Nat :=
  (st.inFlight.filter (fun f => decide (f.key = k))).length

/-- Every in-flight fetch is registered in `pendingFetches` under its key
with its identity. -/
def pendingMatchesInFlight (st : SvcState) : Prop :=
  ∀ f ∈ st.inFlight, mapGet st.pendingFetches f.key = some f.id

/-- Coalescing invariant: pending entries track the in-flight fetches and
each pair key has at most one fetch outstanding. -/
def coalesceInv (st : SvcState) : Prop :=
  pendingMatchesInFlight st ∧ ∀ k, inFlightCount st k ≤ 1

/-- The interleaving refuting the single-flight invariant: a fetch started
before a reconnect settles after a new fetch for the same pair has been
registered; its `finally` handler deletes the newer pending entry, so a
third request starts a second concurrent fetch for the pair. -/
def badTrace : List Ev :=
  [.request ['k'], .reconnect, .request ['k'],
   .complete (Fetch.mk ['k'] 0 0) none, .request ['k']]

/-! ### eth.service.ts: reconnect backoff -/

/-- `MAX_BACKOFF_MS = 30_000`. -/
def MAX_BACKOFF_MS : Nat := 30000

/-- `BASE_BACKOFF_MS = 1_000`. -/
def BASE_BACKOFF_MS : Nat := 1000

/-- The flags and counter of `EthService` relevant to reconnection. -/
structure EthState where
  isShuttingDown : Bool
  isReconnecting : Bool
  reconnectAttempts : Nat
deriving DecidableEq

/-- The backoff delay computed by `handleReconnect`:
`Math.min(MAX_BACKOFF_MS, BASE_BACKOFF_MS * 2 ** attempts)`. -/
def backoffMs (attempts : Nat) : Nat :=
  min MAX_BACKOFF_MS (BASE_BACKOFF_MS * 2 ^ attempts)

/-- `EthService.handleReconnect`: no-op while shutting down or already
reconnecting; otherwise schedule one attempt — compute the backoff from the
current counter, increment the counter and set the reconnecting flag. The
second component is the scheduled delay, `none` when nothing is scheduled. -/
def handleReconnect (st : EthState) : EthState × Option Nat :=
  if st.isShuttingDown || st.isReconnecting then (st, none)
  else
    ({ st with
        isReconnecting := true,
        reconnectAttempts := st.reconnectAttempts + 1 },
      some (backoffMs st.reconnectAttempts))

/-- The block listener installed by `setupEventListeners`: a successful
block event resets the backoff counter to zero. -/
def onBlockEvent (st : EthState) : EthState := { st with reconnectAttempts := 0 }

/-! ### Helper lemmas -/

theorem mapGet_mapSet_self {α : Type} (m : List (PairKey × α)) (k : PairKey)
    (v : α) : mapGet (mapSet m k v) k = some v := by
  simp [mapSet, mapGet]

theorem mapGet_mapDelete_self {α : Type} (m : List (PairKey × α)) (k : PairKey) :
    mapGet (mapDelete m k) k = none := by
  induction m with
  | nil => rfl
  | cons p rest ih =>
    obtain ⟨k2, v⟩ := p
    by_cases h : k2 = k
    · simp [mapDelete, h, ih]
    · simp [mapDelete, mapGet, h, ih]

theorem mapGet_mapDelete_ne {α : Type} (m : List (PairKey × α)) (k k2 : PairKey)
    (h : k2 ≠ k) : mapGet (mapDelete m k) k2 = mapGet m k2 := by
  induction m with
  | nil => rfl
  | cons p rest ih =>
    obtain ⟨k3, v⟩ := p
    by_cases h3 : k3 = k
    · subst h3
      have h32 : ¬ (k3 = k2) := fun hh => h (hh ▸ rfl)
      simp [mapDelete, mapGet, h32, ih]
    · by_cases h32 : k3 = k2 <;> simp [mapDelete, mapGet, h3, h32, h, ih]

theorem mapGet_mapSet_ne {α : Type} (m : List (PairKey × α)) (k k2 : PairKey)
    (v : α) (h : k2 ≠ k) : mapGet (mapSet m k v) k2 = mapGet m k2 := by
  unfold mapSet
  simp only [mapGet, if_neg (Ne.symm h)]
  exact mapGet_mapDelete_ne m k k2 h

theorem jsLtChars_asymm (a b : JsString) (h : jsLtChars a b = true) :
    jsLtChars b a = false := by
  induction a generalizing b with
  | nil =>
    cases b with
    | nil => simp [jsLtChars] at h
    | cons y ys => simp [jsLtChars]
  | cons x xs ih =>
    cases b with
    | nil => simp [jsLtChars] at h
    | cons y ys =>
      simp only [jsLtChars] at h ⊢
      rcases lt_trichotomy x y with hxy | hxy | hxy
      · rw [if_neg (not_lt.2 hxy.le), if_neg (fun hh : y = x => absurd hh.symm (ne_of_lt hxy))]
      · subst hxy
        rw [if_pos rfl] at h ⊢
        rw [if_neg (lt_irrefl x)] at h
        rw [if_neg (lt_irrefl x)]
        exact ih ys (by simpa using h)
      · rw [if_neg (not_lt.2 hxy.le), if_neg (fun hh : x = y => absurd hh (ne_of_lt hxy).symm)] at h
        simp at h

theorem jsLtChars_total (a b : JsString) (h : a ≠ b) :
    jsLtChars a b = true ∨ jsLtChars b a = true := by
  induction a generalizing b with
  | nil =>
    cases b with
    | nil => exact absurd rfl h
    | cons y ys => left; simp [jsLtChars]
  | cons x xs ih =>
    cases b with
    | nil => right; simp [jsLtChars]
    | cons y ys =>
      rcases lt_trichotomy x y with hxy | hxy | hxy
      · left; simp [jsLtChars, hxy]
      · subst hxy
        have hxs : xs ≠ ys := fun hh => h (by rw [hh])
        rcases ih ys hxs with hlt | hlt
        · left; simp [jsLtChars, lt_irrefl, hlt]
        · right; simp [jsLtChars, lt_irrefl, hlt]
      · right; simp [jsLtChars, hxy]

theorem sortTokens_comm (tokenA tokenB : JsString)
    (h : jsToLower tokenA ≠ jsToLower tokenB) :
    sortTokens tokenA tokenB = sortTokens tokenB tokenA := by
  simp only [sortTokens]
  rw [if_neg h, if_neg (Ne.symm h)]
  rcases jsLtChars_total _ _ h with hlt | hlt
  · rw [if_pos hlt, if_neg (by simp [jsLtChars_asymm _ _ hlt])]
  · rw [if_pos hlt, if_neg (by simp [jsLtChars_asymm _ _ hlt])]

/-! ### Claim theorems -/

/-- Claim C1: for all unbounded integers, `getAmountOut` fails with the
insufficient-input error when `amountIn ≤ 0`, fails with the
insufficient-liquidity error when a reserve is `≤ 0`, and otherwise returns
exactly `floor(amountIn * 997 * reserveOut / (reserveIn * 1000 + amountIn * 997))`;
in particular `amountIn=1000, reserveIn=10000, reserveOut=10000` yields 906. -/
theorem getAmountOut_spec :
    (∀ amountIn reserveIn reserveOut : Int, amountIn ≤ 0 →
      getAmountOut amountIn reserveIn reserveOut = .error .insufficientInputAmount) ∧
    (∀ amountIn reserveIn reserveOut : Int, 0 < amountIn →
      reserveIn ≤ 0 ∨ reserveOut ≤ 0 →
      getAmountOut amountIn reserveIn reserveOut = .error .insufficientLiquidity) ∧
    (∀ amountIn reserveIn reserveOut : Int, 0 < amountIn → 0 < reserveIn →
      0 < reserveOut →
      getAmountOut amountIn reserveIn reserveOut =
        .ok ((amountIn * 997 * reserveOut).fdiv (reserveIn * 1000 + amountIn * 997))) ∧
    getAmountOut 1000 10000 10000 = .ok 906 := by
  refine ⟨?_, ?_, ?_, by rfl⟩
  · intro a rin rout h
    simp [getAmountOut, h]
  · intro a rin rout ha h
    simp [getAmountOut, not_le.2 ha, h]
  · intro a rin rout ha hin hout
    have h1 : ¬ a ≤ 0 := not_le.2 ha
    have h2 : ¬ (rin ≤ 0 ∨ rout ≤ 0) := by
      push_neg
      exact ⟨hin, hout⟩
    have hden : (0:Int) < rin * 1000 + a * 997 := by omega
    simp only [getAmountOut, if_neg h1, if_neg h2]
    rw [Int.fdiv_eq_ediv _ hden.le]

/-- Witness for C1 at concrete inputs. -/
theorem getAmountOut_spec_witness :
    getAmountOut 0 5 5 = .error .insufficientInputAmount ∧
    getAmountOut 3 0 5 = .error .insufficientLiquidity ∧
    getAmountOut 1000 10000 10000 =
      .ok ((1000 * 997 * 10000 : Int).fdiv (10000 * 1000 + 1000 * 997)) :=
  ⟨getAmountOut_spec.1 0 5 5 (by decide),
   getAmountOut_spec.2.1 3 0 5 (by decide) (Or.inl (by decide)),
   getAmountOut_spec.2.2.1 1000 10000 10000 (by decide) (by decide) (by decide)⟩

/-- Claim C9: for positive input and reserves, the swap output is the stated
quotient, is non-negative, and is strictly below the output reserve. -/
theorem getAmountOut_bounded (amountIn reserveIn reserveOut : Int)
    (ha : 0 < amountIn) (hin : 0 < reserveIn) (hout : 0 < reserveOut) :
    getAmountOut amountIn reserveIn reserveOut =
      .ok (amountIn * 997 * reserveOut / (reserveIn * 1000 + amountIn * 997)) ∧
    0 ≤ amountIn * 997 * reserveOut / (reserveIn * 1000 + amountIn * 997) ∧
    amountIn * 997 * reserveOut / (reserveIn * 1000 + amountIn * 997) < reserveOut := by
  have h1 : ¬ amountIn ≤ 0 := not_le.2 ha
  have h2 : ¬ (reserveIn ≤ 0 ∨ reserveOut ≤ 0) := by
    push_neg
    exact ⟨hin, hout⟩
  have hden : (0:Int) < reserveIn * 1000 + amountIn * 997 := by omega
  refine ⟨by simp only [getAmountOut, if_neg h1, if_neg h2], ?_, ?_⟩
  · exact Int.ediv_nonneg (by nlinarith) hden.le
  · exact (Int.ediv_lt_iff_lt_mul hden).2 (by nlinarith [mul_pos hin hout])

/-- Witness for C9 at concrete inputs. -/
theorem getAmountOut_bounded_witness :
    getAmountOut 1000 10000 10000 =
      .ok (1000 * 997 * 10000 / (10000 * 1000 + 1000 * 997) : Int) ∧
    (0:Int) ≤ 1000 * 997 * 10000 / (10000 * 1000 + 1000 * 997) ∧
    (1000 * 997 * 10000 / (10000 * 1000 + 1000 * 997) : Int) < 10000 :=
  getAmountOut_bounded 1000 10000 10000 (by decide) (by decide) (by decide)

/-- Claim C4: for `baseFee ≥ 0` and `suggestedPriorityFee ≥ 0`, the fee
update anchors on the larger of the suggested fee and `MIN_PRIORITY_FEE`
and produces, per tier, `priorityFee = anchor * pMult / pDiv` and
`maxFee = baseFee * baseBuffer / 100 + priorityFee` (floor division), with
multipliers low {100,100,110}, medium {120,100,125}, high {150,100,150},
instant {200,100,200}. -/
theorem updateGasPrice_tiers (baseFee suggestedPriorityFee : Int)
    (hb : 0 ≤ baseFee) (hs : 0 ≤ suggestedPriorityFee) :
    (updateGasPriceData baseFee suggestedPriorityFee).low.maxPriorityFeePerGas =
      (max suggestedPriorityFee MIN_PRIORITY_FEE * 100).fdiv 100 ∧
    (updateGasPriceData baseFee suggestedPriorityFee).low.maxFeePerGas =
      (baseFee * 110).fdiv 100 + (max suggestedPriorityFee MIN_PRIORITY_FEE * 100).fdiv 100 ∧
    (updateGasPriceData baseFee suggestedPriorityFee).medium.maxPriorityFeePerGas =
      (max suggestedPriorityFee MIN_PRIORITY_FEE * 120).fdiv 100 ∧
    (updateGasPriceData baseFee suggestedPriorityFee).medium.maxFeePerGas =
      (baseFee * 125).fdiv 100 + (max suggestedPriorityFee MIN_PRIORITY_FEE * 120).fdiv 100 ∧
    (updateGasPriceData baseFee suggestedPriorityFee).high.maxPriorityFeePerGas =
      (max suggestedPriorityFee MIN_PRIORITY_FEE * 150).fdiv 100 ∧
    (updateGasPriceData baseFee suggestedPriorityFee).high.maxFeePerGas =
      (baseFee * 150).fdiv 100 + (max suggestedPriorityFee MIN_PRIORITY_FEE * 150).fdiv 100 ∧
    (updateGasPriceData baseFee suggestedPriorityFee).instant.maxPriorityFeePerGas =
      (max suggestedPriorityFee MIN_PRIORITY_FEE * 200).fdiv 100 ∧
    (updateGasPriceData baseFee suggestedPriorityFee).instant.maxFeePerGas =
      (baseFee * 200).fdiv 100 + (max suggestedPriorityFee MIN_PRIORITY_FEE * 200).fdiv 100 := by
  have hanchor : anchorPriorityFee suggestedPriorityFee =
      max suggestedPriorityFee MIN_PRIORITY_FEE := by
    unfold anchorPriorityFee
    rcases le_or_lt suggestedPriorityFee MIN_PRIORITY_FEE with h | h
    · rw [if_neg (not_lt.2 h), max_eq_right h]
    · rw [if_pos h, max_eq_left h.le]
  have hf : ∀ a : Int, a.fdiv 100 = a / 100 :=
    fun a => Int.fdiv_eq_ediv a (by norm_num)
  simp only [updateGasPriceData, calculateTier, TIERS_low, TIERS_medium,
    TIERS_high, TIERS_instant, hanchor, hf]
  simp

/-- Witness for C4 at concrete inputs. -/
theorem updateGasPrice_tiers_witness :
    (0:Int) ≤ 200 ∧ (0:Int) ≤ 7 ∧
    (updateGasPriceData 200 7).low.maxPriorityFeePerGas =
      (max (7:Int) MIN_PRIORITY_FEE * 100).fdiv 100 ∧
    (updateGasPriceData 200 7).low.maxFeePerGas =
      ((200:Int) * 110).fdiv 100 + (max (7:Int) MIN_PRIORITY_FEE * 100).fdiv 100 ∧
    (updateGasPriceData 200 7).medium.maxPriorityFeePerGas =
      (max (7:Int) MIN_PRIORITY_FEE * 120).fdiv 100 ∧
    (updateGasPriceData 200 7).medium.maxFeePerGas =
      ((200:Int) * 125).fdiv 100 + (max (7:Int) MIN_PRIORITY_FEE * 120).fdiv 100 ∧
    (updateGasPriceData 200 7).high.maxPriorityFeePerGas =
      (max (7:Int) MIN_PRIORITY_FEE * 150).fdiv 100 ∧
    (updateGasPriceData 200 7).high.maxFeePerGas =
      ((200:Int) * 150).fdiv 100 + (max (7:Int) MIN_PRIORITY_FEE * 150).fdiv 100 ∧
    (updateGasPriceData 200 7).instant.maxPriorityFeePerGas =
      (max (7:Int) MIN_PRIORITY_FEE * 200).fdiv 100 ∧
    (updateGasPriceData 200 7).instant.maxFeePerGas =
      ((200:Int) * 200).fdiv 100 + (max (7:Int) MIN_PRIORITY_FEE * 200).fdiv 100 :=
  ⟨by decide, by decide, updateGasPrice_tiers 200 7 (by decide) (by decide)⟩

/-- Claim C5: every valid fee update stores tiers that are monotonically
non-decreasing in both priority fee and max fee across
low ≤ medium ≤ high ≤ instant. -/
theorem gas_tiers_monotone (baseFee suggestedPriorityFee : Int)
    (hb : 0 ≤ baseFee) (hs : 0 ≤ suggestedPriorityFee) :
    (updateGasPriceData baseFee suggestedPriorityFee).low.maxPriorityFeePerGas ≤
      (updateGasPriceData baseFee suggestedPriorityFee).medium.maxPriorityFeePerGas ∧
    (updateGasPriceData baseFee suggestedPriorityFee).medium.maxPriorityFeePerGas ≤
      (updateGasPriceData baseFee suggestedPriorityFee).high.maxPriorityFeePerGas ∧
    (updateGasPriceData baseFee suggestedPriorityFee).high.maxPriorityFeePerGas ≤
      (updateGasPriceData baseFee suggestedPriorityFee).instant.maxPriorityFeePerGas ∧
    (updateGasPriceData baseFee suggestedPriorityFee).low.maxFeePerGas ≤
      (updateGasPriceData baseFee suggestedPriorityFee).medium.maxFeePerGas ∧
    (updateGasPriceData baseFee suggestedPriorityFee).medium.maxFeePerGas ≤
      (updateGasPriceData baseFee suggestedPriorityFee).high.maxFeePerGas ∧
    (updateGasPriceData baseFee suggestedPriorityFee).high.maxFeePerGas ≤
      (updateGasPriceData baseFee suggestedPriorityFee).instant.maxFeePerGas := by
  have ha : (0:Int) ≤ anchorPriorityFee suggestedPriorityFee := by
    unfold anchorPriorityFee MIN_PRIORITY_FEE
    split <;> omega
  simp only [updateGasPriceData, calculateTier, TIERS_low, TIERS_medium,
    TIERS_high, TIERS_instant]
  have h100 : (0:Int) < 100 := by norm_num
  refine ⟨Int.ediv_le_ediv h100 (by omega), Int.ediv_le_ediv h100 (by omega),
    Int.ediv_le_ediv h100 (by omega),
    add_le_add (Int.ediv_le_ediv h100 (by omega)) (Int.ediv_le_ediv h100 (by omega)),
    add_le_add (Int.ediv_le_ediv h100 (by omega)) (Int.ediv_le_ediv h100 (by omega)),
    add_le_add (Int.ediv_le_ediv h100 (by omega)) (Int.ediv_le_ediv h100 (by omega))⟩

/-- Witness for C5 at concrete inputs. -/
theorem gas_tiers_monotone_witness :
    (0:Int) ≤ 300 ∧ (0:Int) ≤ 2000000000 ∧
    ((updateGasPriceData 300 2000000000).low.maxPriorityFeePerGas ≤
      (updateGasPriceData 300 2000000000).medium.maxPriorityFeePerGas ∧
    (updateGasPriceData 300 2000000000).medium.maxPriorityFeePerGas ≤
      (updateGasPriceData 300 2000000000).high.maxPriorityFeePerGas ∧
    (updateGasPriceData 300 2000000000).high.maxPriorityFeePerGas ≤
      (updateGasPriceData 300 2000000000).instant.maxPriorityFeePerGas ∧
    (updateGasPriceData 300 2000000000).low.maxFeePerGas ≤
      (updateGasPriceData 300 2000000000).medium.maxFeePerGas ∧
    (updateGasPriceData 300 2000000000).medium.maxFeePerGas ≤
      (updateGasPriceData 300 2000000000).high.maxFeePerGas ∧
    (updateGasPriceData 300 2000000000).high.maxFeePerGas ≤
      (updateGasPriceData 300 2000000000).instant.maxFeePerGas) :=
  ⟨by decide, by decide, gas_tiers_monotone 300 2000000000 (by decide) (by decide)⟩

/-- Claim C6: reading the fee cache before any update fails with the
not-ready condition; after an update it returns the snapshot produced by
that most recent update; and a stale snapshot is still returned — staleness
never causes a read failure. -/
theorem getGasPrice_read :
    getGasPrice none = .error .serviceUnavailable ∧
    (∀ (cache : Option GasPriceCache) (baseFee suggestedPriorityFee now : Int),
      getGasPrice (updateGasPrice cache baseFee suggestedPriorityFee now) =
        .ok (updateGasPriceData baseFee suggestedPriorityFee)) ∧
    (∀ (c : GasPriceCache) (now stalenessMs : Int),
      isCacheStale (some c) now stalenessMs = true →
      getGasPrice (some c) = .ok c.data) :=
  ⟨rfl, fun _ _ _ _ => rfl, fun _ _ _ _ => rfl⟩

/-- Witness for C6: a stale cache entry is still read back verbatim. -/
theorem getGasPrice_read_witness :
    isCacheStale (some ⟨updateGasPriceData 7 0, 0⟩) 10 5 = true ∧
    getGasPrice (some ⟨updateGasPriceData 7 0, 0⟩) = .ok (updateGasPriceData 7 0) :=
  ⟨by decide, getGasPrice_read.2.2 ⟨updateGasPriceData 7 0, 0⟩ 10 5 (by decide)⟩

/-- Claim C7: `computePairAddress` is a pure function of its arguments
(modelled as such, parameterized only by the pure `ethers` hash
primitives); for tokens distinct after lowercasing it is symmetric in its
two token arguments, and for tokens identical after lowercasing it fails
with the identical-addresses error. -/
theorem computePairAddress_symm :
    (∀ (keccak256 : JsString → JsString)
       (solidityPacked : JsString → JsString → JsString)
       (getCreate2Address : JsString → JsString → JsString → JsString)
       (tokenA tokenB : JsString),
       jsToLower tokenA ≠ jsToLower tokenB →
       computePairAddress keccak256 solidityPacked getCreate2Address tokenA tokenB =
         computePairAddress keccak256 solidityPacked getCreate2Address tokenB tokenA) ∧
    (∀ (keccak256 : JsString → JsString)
       (solidityPacked : JsString → JsString → JsString)
       (getCreate2Address : JsString → JsString → JsString → JsString)
       (tokenA tokenB : JsString),
       jsToLower tokenA = jsToLower tokenB →
       computePairAddress keccak256 solidityPacked getCreate2Address tokenA tokenB =
         .error .identicalAddresses) := by
  constructor
  · intro kec sp g2 tokenA tokenB h
    unfold computePairAddress
    rw [sortTokens_comm tokenA tokenB h]
  · intro kec sp g2 tokenA tokenB h
    simp only [computePairAddress, sortTokens, if_pos h]

/-- Witness for C7 at concrete tokens (symmetry for distinct tokens,
identical-addresses failure for case-variant copies of one token). -/
theorem computePairAddress_symm_witness :
    jsToLower ['0', 'x', 'a'] ≠ jsToLower ['0', 'x', 'B'] ∧
    computePairAddress id concatPacked concatCreate2 ['0', 'x', 'a'] ['0', 'x', 'B'] =
      computePairAddress id concatPacked concatCreate2 ['0', 'x', 'B'] ['0', 'x', 'a'] ∧
    jsToLower ['0', 'x', 'A'] = jsToLower ['0', 'x', 'a'] ∧
    computePairAddress id concatPacked concatCreate2 ['0', 'x', 'A'] ['0', 'x', 'a'] =
      .error .identicalAddresses :=
  ⟨by decide,
   computePairAddress_symm.1 id concatPacked concatCreate2 _ _ (by decide),
   by decide,
   computePairAddress_symm.2 id concatPacked concatCreate2 _ _ (by decide)⟩

/-! ### Reserve-cache invariant machinery -/

theorem two_le_length_of_mem {α : Type} [DecidableEq α] {l : List α} {a b : α}
    (ha : a ∈ l) (hb : b ∈ l) (hab : a ≠ b) : 2 ≤ l.length := by
  have hb' : b ∈ l.erase a := (List.mem_erase_of_ne (Ne.symm hab)).2 hb
  have h1 : 0 < (l.erase a).length := List.length_pos_of_mem hb'
  have h2 : (l.erase a).length = l.length - 1 := List.length_erase_of_mem ha
  have h3 : 0 < l.length := List.length_pos_of_mem ha
  omega

theorem coalesceInv_requestStep (st : SvcState) (k : PairKey)
    (h : coalesceInv st) : coalesceInv (requestStep st k).1 := by
  obtain ⟨hP, hC⟩ := h
  unfold requestStep
  cases hc : mapGet st.reservesCache k with
  | some r => exact ⟨hP, hC⟩
  | none =>
    cases hp : mapGet st.pendingFetches k with
    | some fid => exact ⟨hP, hC⟩
    | none =>
      have hknew : ∀ f ∈ st.inFlight, f.key ≠ k := by
        intro f hf hkey
        have hgot := hP f hf
        rw [hkey, hp] at hgot
        exact Option.noConfusion hgot
      constructor
      · intro f hf
        rcases List.mem_cons.1 hf with rfl | hf2
        · exact mapGet_mapSet_self _ _ _
        · rw [mapGet_mapSet_ne _ _ _ _ (hknew f hf2)]
          exact hP f hf2
      · intro k2
        unfold inFlightCount
        by_cases hk : k = k2
        · subst hk
          have hnil : st.inFlight.filter (fun f => decide (f.key = k)) = [] := by
            rw [List.filter_eq_nil_iff]
            intro f hf
            simp [hknew f hf]
          simp [List.filter_cons, hnil]
        · have := hC k2
          unfold inFlightCount at this
          simpa [List.filter_cons, hk] using this

theorem coalesceInv_completeStep (st : SvcState) (f : Fetch)
    (result : Option Reserves) (hmem : f ∈ st.inFlight) (h : coalesceInv st) :
    coalesceInv (completeStep st f result).1 := by
  obtain ⟨hP, hC⟩ := h
  have hP' : ∀ g ∈ st.inFlight.filter (fun g => decide (g ≠ f)),
      mapGet (mapDelete st.pendingFetches f.key) g.key = some g.id := by
    intro g hg
    rw [List.mem_filter] at hg
    obtain ⟨hgmem, hgdec⟩ := hg
    have hgne : g ≠ f := by simpa using hgdec
    have hkey : g.key ≠ f.key := by
      intro hk
      have h2 : 2 ≤ (st.inFlight.filter (fun x => decide (x.key = f.key))).length := by
        refine two_le_length_of_mem (a := g) (b := f) ?_ ?_ hgne
        · rw [List.mem_filter]
          exact ⟨hgmem, by simp [hk]⟩
        · rw [List.mem_filter]
          exact ⟨hmem, by simp⟩
      have h1 := hC f.key
      unfold inFlightCount at h1
      omega
    rw [mapGet_mapDelete_ne _ _ _ hkey]
    exact hP g hgmem
  have hC' : ∀ k, ((st.inFlight.filter (fun g => decide (g ≠ f))).filter
      (fun x => decide (x.key = k))).length ≤ 1 := by
    intro k
    rw [List.filter_comm]
    have h1 := hC k
    unfold inFlightCount at h1
    exact le_trans (List.length_filter_le _ _) h1
  cases result with
  | none => exact ⟨hP', hC'⟩
  | some r =>
    simp only [completeStep]
    by_cases hg : f.generation = st.providerGeneration
    · rw [if_pos hg]
      exact ⟨hP', hC'⟩
    · rw [if_neg hg]
      exact ⟨hP', hC'⟩

theorem coalesceInv_step (st : SvcState) (e : Ev) (h : coalesceInv st)
    (he : isReconnectEv e = false) : coalesceInv (step st e) := by
  cases e with
  | request k => exact coalesceInv_requestStep st k h
  | complete f result =>
    simp only [step]
    by_cases hmem : f ∈ st.inFlight
    · rw [if_pos hmem]
      exact coalesceInv_completeStep st f result hmem h
    · rw [if_neg hmem]
      exact h
  | reconnect => simp [isReconnectEv] at he
  | sync k r0 r1 t =>
    obtain ⟨hP, hC⟩ := h
    simp only [step, syncStep]
    split
    · exact ⟨hP, hC⟩
    · exact ⟨hP, hC⟩

theorem coalesceInv_initState : coalesceInv initState := by
  constructor
  · intro f hf
    exact absurd hf (List.not_mem_nil f)
  · intro k
    simp [inFlightCount, initState]

theorem coalesceInv_runFrom (es : List Ev) (st : SvcState) (h : coalesceInv st)
    (hes : noReconnect es = true) : coalesceInv (runFrom st es) := by
  induction es generalizing st with
  | nil => exact h
  | cons e rest ih =>
    rw [noReconnect, List.all_cons, Bool.and_eq_true] at hes
    obtain ⟨h1, h2⟩ := hes
    have h1' : isReconnectEv e = false := by
      cases hh : isReconnectEv e
      · rfl
      · rw [hh] at h1
        simp at h1
    exact ih (step st e) (coalesceInv_step st e h h1') h2

/-- Claim C2 counterexample: it is not true that every reachable state has
at most one in-flight fetch per pair key. In `badTrace`, a pre-reconnect
fetch settles after a post-reconnect fetch for the same pair was
registered; its unconditional `finally` deletes the newer pending entry, so
a further request starts a second concurrent underlying fetch for the pair:
the state reached has two in-flight fetches for key `['k']`. -/
theorem reserve_singleflight_counterexample :
    ¬ (∀ (es : List Ev) (k : PairKey), inFlightCount (run es) k ≤ 1) := by
  intro h
  exact absurd (h badTrace ['k']) (by decide)

/-- Claim C2 amended: in every execution without reconnect events, each
pair key has at most one in-flight fetch at every reachable state; a fetch
completion (success or failure) unconditionally removes the pending entry
for its key; a request finding no cached entry joins the pending fetch for
its key when one is registered and otherwise starts exactly one new fetch,
registered under its key with the captured generation. -/
theorem reserve_singleflight_amended :
    (∀ (es : List Ev), noReconnect es = true →
      ∀ (k : PairKey), inFlightCount (run es) k ≤ 1) ∧
    (∀ (st : SvcState) (f : Fetch) (result : Option Reserves),
      f ∈ st.inFlight →
      mapGet (step st (.complete f result)).pendingFetches f.key = none) ∧
    (∀ (st : SvcState) (k : PairKey) (fid : Nat),
      mapGet st.reservesCache k = none → mapGet st.pendingFetches k = some fid →
      requestStep st k = (st, .joined fid)) ∧
    (∀ (st : SvcState) (k : PairKey),
      mapGet st.reservesCache k = none → mapGet st.pendingFetches k = none →
      requestStep st k =
        ({ st with
            pendingFetches := mapSet st.pendingFetches k st.nextId,
            inFlight := Fetch.mk k st.nextId st.providerGeneration :: st.inFlight,
            nextId := st.nextId + 1 },
          .started (Fetch.mk k st.nextId st.providerGeneration))) := by
  refine ⟨?_, ?_, ?_, ?_⟩
  · intro es hes k
    exact (coalesceInv_runFrom es initState coalesceInv_initState hes).2 k
  · intro st f result hmem
    simp only [step]
    rw [if_pos hmem]
    cases result with
    | none => exact mapGet_mapDelete_self _ _
    | some r =>
      simp only [completeStep]
      by_cases hg : f.generation = st.providerGeneration
      · rw [if_pos hg]
        exact mapGet_mapDelete_self _ _
      · rw [if_neg hg]
        exact mapGet_mapDelete_self _ _
  · intro st k fid hc hp
    simp only [requestStep, hc, hp]
  · intro st k hc hp
    simp only [requestStep, hc, hp]

/-- Witness for the amended C2: a two-request trace keeps a single
in-flight fetch for the requested pair. -/
theorem reserve_singleflight_amended_witness :
    noReconnect [Ev.request ['k'], Ev.request ['k']] = true ∧
    inFlightCount (run [Ev.request ['k'], Ev.request ['k']]) ['k'] ≤ 1 :=
  ⟨by decide,
   reserve_singleflight_amended.1 [Ev.request ['k'], Ev.request ['k']] (by decide) ['k']⟩

/-- Claim C3: when a fetch completes with a captured generation different
from the current one, the fetched value is not written into the reserve
cache (the cache is unchanged), its pending entry is gone, and a next
request for that pair (with the cache still empty for it) starts a fresh
fetch capturing the current generation. -/
theorem stale_fetch_discarded (st : SvcState) (f : Fetch) (r : Reserves)
    (hmem : f ∈ st.inFlight) (hgen : f.generation ≠ st.providerGeneration) :
    (step st (.complete f (some r))).reservesCache = st.reservesCache ∧
    mapGet (step st (.complete f (some r))).pendingFetches f.key = none ∧
    (mapGet st.reservesCache f.key = none →
      (requestStep (step st (.complete f (some r))) f.key).2 =
        .started (Fetch.mk f.key st.nextId st.providerGeneration)) := by
  have hstep : step st (.complete f (some r)) =
      { st with
          inFlight := st.inFlight.filter (fun g => decide (g ≠ f)),
          pendingFetches := mapDelete st.pendingFetches f.key } := by
    simp only [step]
    rw [if_pos hmem]
    simp only [completeStep]
    rw [if_neg hgen]
  rw [hstep]
  refine ⟨rfl, mapGet_mapDelete_self _ _, ?_⟩
  intro hcache
  simp only [requestStep, hcache, mapGet_mapDelete_self]

/-- Witness for C3: the fetch started before the reconnect in a concrete
trace is discarded and the pair key becomes fetchable afresh. -/
theorem stale_fetch_discarded_witness :
    (Fetch.mk ['k'] 0 0 ∈ (run [Ev.request ['k'], Ev.reconnect]).inFlight) ∧
    (Fetch.mk ['k'] 0 0).generation ≠
      (run [Ev.request ['k'], Ev.reconnect]).providerGeneration ∧
    mapGet (run [Ev.request ['k'], Ev.reconnect]).reservesCache ['k'] = none ∧
    (step (run [Ev.request ['k'], Ev.reconnect])
        (.complete (Fetch.mk ['k'] 0 0) (some ⟨4, 5, 6⟩))).reservesCache =
      (run [Ev.request ['k'], Ev.reconnect]).reservesCache ∧
    mapGet (step (run [Ev.request ['k'], Ev.reconnect])
        (.complete (Fetch.mk ['k'] 0 0) (some ⟨4, 5, 6⟩))).pendingFetches ['k'] = none ∧
    (requestStep (step (run [Ev.request ['k'], Ev.reconnect])
        (.complete (Fetch.mk ['k'] 0 0) (some ⟨4, 5, 6⟩))) ['k']).2 =
      .started (Fetch.mk ['k'] (run [Ev.request ['k'], Ev.reconnect]).nextId
        (run [Ev.request ['k'], Ev.reconnect]).providerGeneration) := by
  have h := stale_fetch_discarded (run [Ev.request ['k'], Ev.reconnect])
    (Fetch.mk ['k'] 0 0) ⟨4, 5, 6⟩ (by decide) (by decide)
  exact ⟨by decide, by decide, by decide, h.1, h.2.1, h.2.2 (by decide)⟩

/-- Claim C10: a fetch completing successfully with a superseded generation
still delivers the fetched reserves to every caller awaiting the coalesced
fetch (the shared outcome is the fetched value, not an error); only the
cache write and the Sync subscription are skipped. -/
theorem stale_fetch_result_delivered (st : SvcState) (f : Fetch) (r : Reserves)
    (hgen : f.generation ≠ st.providerGeneration) :
    (completeStep st f (some r)).2 = .ok r ∧
    (completeStep st f (some r)).1.reservesCache = st.reservesCache ∧
    (completeStep st f (some r)).1.pairContracts = st.pairContracts := by
  simp only [completeStep]
  rw [if_neg hgen]
  exact ⟨rfl, rfl, rfl⟩

/-- Witness for C10 at a concrete state and fetch. -/
theorem stale_fetch_result_delivered_witness :
    (Fetch.mk ['k'] 0 0).generation ≠
      (invalidateSubscriptions initState).providerGeneration ∧
    (completeStep (invalidateSubscriptions initState) (Fetch.mk ['k'] 0 0)
        (some ⟨4, 5, 6⟩)).2 = .ok ⟨4, 5, 6⟩ ∧
    (completeStep (invalidateSubscriptions initState) (Fetch.mk ['k'] 0 0)
        (some ⟨4, 5, 6⟩)).1.reservesCache =
      (invalidateSubscriptions initState).reservesCache ∧
    (completeStep (invalidateSubscriptions initState) (Fetch.mk ['k'] 0 0)
        (some ⟨4, 5, 6⟩)).1.pairContracts =
      (invalidateSubscriptions initState).pairContracts :=
  ⟨by decide,
   stale_fetch_result_delivered (invalidateSubscriptions initState)
     (Fetch.mk ['k'] 0 0) ⟨4, 5, 6⟩ (by decide)⟩

/-- Claim C8: outside shutdown and with no reconnect already in flight, a
scheduled reconnect attempt delays by `min(maxBackoff, baseBackoff * 2^n)`
for current counter `n` and increments the counter; the delays for attempts
0..3 are 1000, 2000, 4000, 8000 ms; a successful new-block event resets the
counter to zero, making the next scheduled backoff 1000 ms again. -/
theorem reconnect_backoff (st : EthState)
    (h1 : st.isShuttingDown = false) (h2 : st.isReconnecting = false) :
    handleReconnect st =
      ({ st with
          isReconnecting := true,
          reconnectAttempts := st.reconnectAttempts + 1 },
        some (min MAX_BACKOFF_MS (BASE_BACKOFF_MS * 2 ^ st.reconnectAttempts))) ∧
    backoffMs 0 = 1000 ∧ backoffMs 1 = 2000 ∧ backoffMs 2 = 4000 ∧
    backoffMs 3 = 8000 ∧
    (onBlockEvent st).reconnectAttempts = 0 ∧
    (handleReconnect (onBlockEvent st)).2 = some 1000 := by
  have hcond : (st.isShuttingDown || st.isReconnecting) = false := by
    rw [h1, h2]
    rfl
  refine ⟨?_, by decide, by decide, by decide, by decide, rfl, ?_⟩
  · simp [handleReconnect, hcond, backoffMs]
  · simp [handleReconnect, onBlockEvent, h1, h2, backoffMs, MAX_BACKOFF_MS,
      BASE_BACKOFF_MS]

/-- Witness for C8 at a concrete state. -/
theorem reconnect_backoff_witness :
    (EthState.mk false false 2).isShuttingDown = false ∧
    (EthState.mk false false 2).isReconnecting = false ∧
    (handleReconnect (EthState.mk false false 2) =
      (EthState.mk false true 3,
        some (min MAX_BACKOFF_MS (BASE_BACKOFF_MS * 2 ^ 2))) ∧
    backoffMs 0 = 1000 ∧ backoffMs 1 = 2000 ∧ backoffMs 2 = 4000 ∧
    backoffMs 3 = 8000 ∧
    (onBlockEvent (EthState.mk false false 2)).reconnectAttempts = 0 ∧
    (handleReconnect (onBlockEvent (EthState.mk false false 2))).2 = some 1000) :=
  ⟨rfl, rfl, reconnect_backoff (EthState.mk false false 2) rfl rfl⟩
